import Mathlib

/-!
Verification of the screenshot question-answering pipeline.

Python strings are embedded as lists of Unicode code points (`List Nat`).
`str.lower()` is embedded as the ASCII case map, which agrees with the
source on every comparison performed here (all compared literals are ASCII).
-/

abbrev PyStr := List Nat

/-- Code points of a Lean string literal, used to transcribe the source's
string literals. -/
def s2c (s : String) : PyStr := s.toList.map Char.toNat

/-- ASCII lower-casing of one code point, as performed by `str.lower()` on
the ASCII range. -/
def pyLowerCode (n : Nat) : Nat := if 65 ≤ n ∧ n ≤ 90 then n + 32 else n

/-- `str.lower()` on an embedded string. -/
def pyLower (s : PyStr) : PyStr := s.map pyLowerCode

/-- Python truthiness of an optional string (`None` and `""` are falsy). -/
def pyTruthy : Option PyStr → Bool
  | none => false
  | some s => !s.isEmpty

/-- Does `s` begin with `sub`? (helper for the embedding of Python's
substring test `sub in s`). -/
def beginsWith : PyStr → PyStr → Bool
  | _, [] => true
  | [], _ :: _ => false
  | a :: s, b :: t => a == b && beginsWith s t

/-- Python's substring containment `sub in s`. -/
def containsSub : PyStr → PyStr → Bool
  | [], sub => sub.isEmpty
  | a :: rest, sub => beginsWith (a :: rest) sub || containsSub rest sub

/-- Index of the last `'.'` (code point 46) in a file name, if any
(the embedding of `name.rfind('.')` underlying `pathlib`'s `suffix`). -/
def lastDotIdx : PyStr → Option Nat
  | [] => none
  | c :: cs =>
    match lastDotIdx cs with
    | some i => some (i + 1)
    | none => if c = 46 then some 0 else none

/-- `pathlib.PurePath.suffix` of a file name (no separators): the part from
the last dot on, empty when the dot is absent, leading, or trailing. -/
def pySuffixOfName (name : PyStr) : PyStr :=
  match lastDotIdx name with
  | some i => if 0 < i ∧ i + 1 < name.length then name.drop i else []
  | none => []

/-- Accumulator pass for `pathlib.PurePath.name`: keep the characters after
the last path separator (`'/'` = 47 or `'\'` = 92, both accepted on
Windows paths). -/
def pyNameAux : PyStr → PyStr → PyStr
  | acc, [] => acc
  | acc, c :: cs => if c = 47 ∨ c = 92 then pyNameAux [] cs else pyNameAux (acc ++ [c]) cs

/-- `pathlib.PurePath.name`: the last component of a path. -/
def pyName (p : PyStr) : PyStr := pyNameAux [] p

/-- `pathlib.PurePath.suffix` of a full path. -/
def pySuffix (p : PyStr) : PyStr := pySuffixOfName (pyName p)

/-- The image-extension allow-list shared by `screenshot_handler.py` and
`main.py`: `{'.png', '.jpg', '.jpeg', '.bmp', '.gif', '.webp'}`. -/
def image_extensions : List PyStr :=
  [s2c ".png", s2c ".jpg", s2c ".jpeg", s2c ".bmp", s2c ".gif", s2c ".webp"]

/-- The filter used on directory entries: `f.suffix.lower() in image_extensions`
applied to a bare file name. -/
def isImageName (name : PyStr) : Bool :=
  image_extensions.contains (pyLower (pySuffixOfName name))

/-- The filter used by the watcher: `Path(event.src_path).suffix.lower() in
image_extensions` applied to a full path. -/
def isImagePath (p : PyStr) : Bool :=
  image_extensions.contains (pyLower (pySuffix p))

/-- One entry of the watched directory, as observed by
`screenshot_handler.get_latest_screenshot`: its name, whether `is_file()`
holds, and its `st_mtime` (modelled as a Nat; only its order is used). -/
structure DirEntry where
  name : PyStr
  isFile : Bool
  mtime : Nat
deriving DecidableEq

/-- Python's `max(files, key=lambda f: f.stat().st_mtime)`: left fold that
replaces the current best only on a strictly larger key, so the first
maximal element wins ties. -/
def pyMaxByMtime (best : DirEntry) : List DirEntry → DirEntry
  | [] => best
  | f :: fs => pyMaxByMtime (if best.mtime < f.mtime then f else best) fs

/-- `screenshot_handler.get_latest_screenshot`. The directory is `none` when
`dir_path.exists()` is false, otherwise the list of its entries. The source
wraps the body in `try/except` returning `None`, so the embedding is a total
function. -/
def get_latest_screenshot (dir : Option (List DirEntry)) : Option PyStr :=
  match dir with
  | none => none
  | some entries =>
    match entries.filter (fun f => f.isFile && isImageName f.name) with
    | [] => none
    | e :: es => some (pyMaxByMtime e es).name

/-- An exception raised by a vendor call, as inspected by the adapters:
`str(e)`, `type(e).__name__`, and the optional `status_code` / `code`
attributes (modelled as integers; the classification only compares them
with 402 and 429). -/
structure PyExc where
  msg : PyStr
  typeName : PyStr
  statusCode : Option Int
  codeAttr : Option Int
deriving DecidableEq

/-- Outcome of the `try` block of a `process_image` body: either the text
extracted from the vendor response, or the exception raised. -/
abbrev VendorOutcome := Except PyExc PyStr

/-- Python `str.isspace` characters relevant to `str.strip()` (ASCII). -/
def isPySpace (n : Nat) : Bool :=
  n == 32 || n == 9 || n == 10 || n == 13 || n == 11 || n == 12

/-- Python `str.strip()`. -/
def pyStrip (s : PyStr) : PyStr :=
  ((s.dropWhile isPySpace).reverse.dropWhile isPySpace).reverse

/-- `GeminiProvider.process_image`'s billing keyword list. -/
def gemini_billing_keywords : List PyStr :=
  [s2c "quota", s2c "billing", s2c "payment", s2c "credit", s2c "insufficient",
   s2c "exceeded", s2c "limit", s2c "subscription", s2c "account"]

/-- The warning returned by `GeminiProvider.process_image` on a billing error. -/
def geminiWarning : PyStr :=
  s2c "⚠️ Low credits/billing issue detected.\nPlease check your Gemini API billing."

/-- `GeminiProvider.process_image`, as a function of the outcome of its
`try` block. -/
def geminiProcessImage (outcome : VendorOutcome) : Option PyStr × Option PyStr :=
  match outcome with
  | .ok text => (some (pyStrip text), none)
  | .error e =>
    if gemini_billing_keywords.any (fun kw => containsSub (pyLower e.msg) kw) then
      (none, some geminiWarning)
    else
      (none, none)

/-- `OpenAIProvider.process_image`'s billing keyword list. -/
def openai_billing_keywords : List PyStr :=
  [s2c "insufficient_quota", s2c "billing", s2c "payment", s2c "credit",
   s2c "insufficient", s2c "exceeded", s2c "limit", s2c "subscription",
   s2c "account", s2c "rate_limit", s2c "quota", s2c "402", s2c "429"]

/-- The `error_code` extracted by `OpenAIProvider.process_image`:
`e.status_code` when present, else `e.code`. -/
def openaiErrorCode (e : PyExc) : Option Int :=
  match e.statusCode with
  | some v => some v
  | none => e.codeAttr

/-- The `is_billing_error` condition of `OpenAIProvider.process_image`. -/
def openaiIsBillingError (e : PyExc) : Bool :=
  (openaiErrorCode e == some 402 || openaiErrorCode e == some 429)
    || openai_billing_keywords.any (fun kw => containsSub (pyLower e.msg) kw)
    || containsSub (pyLower e.typeName) (s2c "quota")
    || containsSub (pyLower e.typeName) (s2c "billing")

/-- The warning returned by `OpenAIProvider.process_image` on a billing error. -/
def openaiWarning : PyStr :=
  s2c "⚠️ Low credits/billing issue detected.\nPlease check your OpenAI API billing."

/-- `OpenAIProvider.process_image`, as a function of the outcome of its
`try` block. -/
def openaiProcessImage (outcome : VendorOutcome) : Option PyStr × Option PyStr :=
  match outcome with
  | .ok text => (some (pyStrip text), none)
  | .error e =>
    if openaiIsBillingError e then (none, some openaiWarning) else (none, none)

/-- `AnthropicProvider.process_image`'s billing keyword list. -/
def anthropic_billing_keywords : List PyStr :=
  [s2c "quota", s2c "billing", s2c "payment", s2c "credit", s2c "insufficient",
   s2c "exceeded", s2c "limit", s2c "subscription", s2c "account", s2c "rate_limit"]

/-- The warning returned by `AnthropicProvider.process_image` on a billing error. -/
def anthropicWarning : PyStr :=
  s2c "⚠️ Low credits/billing issue detected.\nPlease check your Anthropic API billing."

/-- `AnthropicProvider.process_image`, as a function of the outcome of its
`try` block. -/
def anthropicProcessImage (outcome : VendorOutcome) : Option PyStr × Option PyStr :=
  match outcome with
  | .ok text => (some (pyStrip text), none)
  | .error e =>
    if anthropic_billing_keywords.any (fun kw => containsSub (pyLower e.msg) kw) then
      (none, some anthropicWarning)
    else
      (none, none)

/-- The three vendor backends of `ai_providers.py`. -/
inductive ProviderTag
  | gemini
  | openai
  | anthropic
deriving DecidableEq

/-- Message of the `ValueError` raised by `create_provider` on an unknown
name (the name has already been lower-cased at that point). -/
def unknownProviderMsg (n : PyStr) : PyStr := s2c "Unknown provider: " ++ n

/-- `ai_providers.create_provider`. `libAvailable` records which vendor
client libraries imported successfully; a missing library makes the
constructor raise `ImportError`. The result is `Except`: `.error` is the
message of the exception raised. -/
def create_provider (libAvailable : ProviderTag → Bool) (provider_name : PyStr) :
    Except PyStr ProviderTag :=
  let n := pyLower provider_name
  if n = s2c "gemini" then
    if libAvailable .gemini then .ok .gemini
    else .error (s2c "google-generativeai package is required. Install with: pip install google-generativeai")
  else if n = s2c "openai" then
    if libAvailable .openai then .ok .openai
    else .error (s2c "openai package is required. Install with: pip install openai")
  else if n = s2c "anthropic" then
    if libAvailable .anthropic then .ok .anthropic
    else .error (s2c "anthropic package is required. Install with: pip install anthropic")
  else .error (unknownProviderMsg n)

/-- The configuration read by `config.Config`: the three optional API keys
and the default provider name. -/
structure ConfigEnv where
  geminiKey : Option PyStr
  openaiKey : Option PyStr
  anthropicKey : Option PyStr
  defaultProvider : PyStr
deriving DecidableEq

/-- `Config.get_api_key`. -/
def get_api_key (cfg : ConfigEnv) (provider : PyStr) : Option PyStr :=
  let p := pyLower provider
  if p = s2c "gemini" then cfg.geminiKey
  else if p = s2c "openai" then cfg.openaiKey
  else if p = s2c "anthropic" then cfg.anthropicKey
  else none

/-- `Config.MODAL_DISPLAY_DURATION` (seconds). -/
def MODAL_DISPLAY_DURATION : Nat := 5

/-- `Config.MODAL_ERROR_DURATION` (seconds). -/
def MODAL_ERROR_DURATION : Nat := 10

/-- Outcome of `ScreenshotQuestionAnswerer._initialize_provider`: a
constructed provider, or `sys.exit(code)` after printing `msg`. -/
inductive InitResult
  | ok (p : ProviderTag)
  | exitFail (code : Nat) (msg : PyStr)
deriving DecidableEq

/-- First line printed on the missing-API-key exit path of
`_initialize_provider`. -/
def missingKeyMsg (n : PyStr) : PyStr :=
  s2c "Error: API key for " ++ n ++ s2c " not found."

/-- Line printed on the provider-construction-failure exit path of
`_initialize_provider`. -/
def initErrorMsg (e : PyStr) : PyStr := s2c "Error initializing provider: " ++ e

/-- `provider_name or Config.DEFAULT_PROVIDER` (`None` and `""` fall back). -/
def resolvedProviderName (cfg : ConfigEnv) (providerArg : Option PyStr) : PyStr :=
  match providerArg with
  | some n => if n.isEmpty then cfg.defaultProvider else n
  | none => cfg.defaultProvider

/-- `ScreenshotQuestionAnswerer._initialize_provider`. -/
def initialize_provider (cfg : ConfigEnv) (libAvailable : ProviderTag → Bool)
    (providerArg : Option PyStr) : InitResult :=
  let name := resolvedProviderName cfg providerArg
  match get_api_key cfg name with
  | none => .exitFail 1 (missingKeyMsg name)
  | some k =>
    if k.isEmpty then .exitFail 1 (missingKeyMsg name)
    else
      match create_provider libAvailable name with
      | .ok p => .ok p
      | .error e => .exitFail 1 (initErrorMsg e)

/-- The directory-existence check at the top of
`ScreenshotQuestionAnswerer.run`: `some (code, msg)` when the process
prints `msg` and exits with `code`. -/
def runDirCheck (dirExists : Bool) : Option (Nat × PyStr) :=
  if dirExists then none
  else some (1, s2c "Error: Screenshot directory does not exist: C:\\Users\\janpa\\Pictures\\Screenshots")

/-- Observable actions of `ScreenshotQuestionAnswerer.process_screenshot`:
console prints, the vendor call, and `AnswerModal.show_answer` requests. -/
inductive Effect
  | log (msg : PyStr)
  | backendCall (path : PyStr)
  | showModal (text : PyStr) (durationSec : Nat) (warning : Bool)
deriving DecidableEq

/-- Environment of one `process_screenshot` call: what
`get_latest_screenshot` would return, and the pair the active provider's
`process_image` returns for a given path. -/
structure ProcEnv where
  latest : Option PyStr
  backend : PyStr → Option PyStr × Option PyStr

/-- Path resolution at the top of `process_screenshot`: an explicit argument
is used as is; otherwise the latest screenshot is looked up and a falsy
result means "no screenshots found". -/
def resolveScreenshotPath (env : ProcEnv) : Option PyStr → Option PyStr
  | some p => some p
  | none =>
    match env.latest with
    | none => none
    | some p => if p.isEmpty then none else some p

/-- The `if not answer` tail of `process_screenshot`. -/
def answerBranch : Option PyStr → List Effect
  | none => [.log (s2c "No answer received from AI.")]
  | some a =>
    if a.isEmpty then [.log (s2c "No answer received from AI.")]
    else [.log (s2c "Answer: " ++ a), .showModal a MODAL_DISPLAY_DURATION false]

/-- Routing of the provider's result pair in `process_screenshot`: a truthy
`billing_error` goes to the warning display, otherwise the answer branch
runs. -/
def resultEffects : Option PyStr × Option PyStr → List Effect
  | (answer, billing) =>
    match billing with
    | some b =>
      if b.isEmpty then answerBranch answer
      else [.log (s2c "Billing error: " ++ b), .showModal b MODAL_ERROR_DURATION true]
    | none => answerBranch answer

/-- `ScreenshotQuestionAnswerer.process_screenshot`. The state is
`self.last_processed_path`; the result is the new state and the list of
observable actions, in order. -/
def process_screenshot (env : ProcEnv) (last_processed_path : Option PyStr)
    (arg : Option PyStr) : Option PyStr × List Effect :=
  match resolveScreenshotPath env arg with
  | none => (last_processed_path, [.log (s2c "No screenshots found in the directory.")])
  | some p =>
    if some p = last_processed_path then (last_processed_path, [])
    else
      (some p,
        .log (s2c "Processing screenshot: " ++ p) :: .backendCall p
          :: resultEffects (env.backend p))

/-- Number of vendor calls in an effect list. -/
def countBackendCalls (l : List Effect) : Nat :=
  l.countP (fun e => match e with | .backendCall _ => true | _ => false)

/-- A file-system event delivered to `ScreenshotHandler.on_created`. -/
structure FsEvent where
  is_directory : Bool
  src_path : PyStr
deriving DecidableEq

/-- Observable actions of `ScreenshotHandler.on_created`: the settle delay
(`time.sleep(0.5)`, in milliseconds) and the dispatch to
`process_screenshot`. -/
inductive WatchEffect
  | sleepMs (ms : Nat)
  | dispatch (path : PyStr)
deriving DecidableEq

/-- `ScreenshotHandler.on_created`. -/
def on_created (event : FsEvent) : List WatchEffect :=
  if event.is_directory then []
  else if isImagePath event.src_path then
    [.sleepMs 500, .dispatch event.src_path]
  else []

/-- A callback scheduled on the tkinter thread by `AnswerModal`:
the body of `show_answer`'s `_show` (which sets the label and arms the
dismiss timer), or `_hide_with_click_through`. -/
inductive OverlayEvt
  | showEvt (text : PyStr) (warning : Bool) (durMs : Nat)
  | hideEvt
deriving DecidableEq

/-- A pending `root.after` callback with its absolute due time (ms). -/
structure Sched where
  time : Nat
  evt : OverlayEvt
deriving DecidableEq

/-- The display state owned by the tkinter thread: whether the window is
deiconified, the label text, and whether it uses the warning color. -/
structure OverlayState where
  visible : Bool
  text : PyStr
  warning : Bool
deriving DecidableEq

/-- State before any `show_answer` call: window withdrawn, empty label. -/
def initialOverlay : OverlayState := ⟨false, [], false⟩

/-- Insert a newly armed timer into the pending queue: tkinter fires timers
in due-time order, and timers with equal due times in creation order, so
insertion is stable. -/
def insertSched (q : List Sched) (s : Sched) : List Sched :=
  match q with
  | [] => [s]
  | x :: xs => if s.time < x.time then s :: x :: xs else x :: insertSched xs s

/-- Effect of one callback on the tkinter thread. `_show` configures the
label, deiconifies, and arms `root.after(durMs, _hide_with_click_through)`;
`_hide_with_click_through` withdraws the window. Neither cancels any
previously armed timer. -/
def applyEvt (st : OverlayState) (time : Nat) : OverlayEvt → OverlayState × List Sched
  | .showEvt txt warn dur => (⟨true, txt, warn⟩, [⟨time + dur, .hideEvt⟩])
  | .hideEvt => (⟨false, st.text, st.warning⟩, [])

/-- Run the tkinter event loop on a pending queue, producing the trace of
(due time, state after the callback). Fuel bounds the number of callbacks;
every run below uses enough fuel to drain its queue. -/
def runOverlay : Nat → OverlayState → List Sched → List (Nat × OverlayState)
  | 0, _, _ => []
  | _ + 1, _, [] => []
  | fuel + 1, st, x :: xs =>
    let r := applyEvt st x.time x.evt
    (x.time, r.1) :: runOverlay fuel r.1 (r.2.foldl insertSched xs)

/-- `AnswerModal.show_answer(text, duration, is_warning)` issued at absolute
time `t`: it posts `_show` onto the tkinter thread via `root.after(0, _show)`,
and `_show` arms the dismissal `duration * 1000` ms later. -/
def show_answer (t : Nat) (text : PyStr) (durationSec : Nat) (warn : Bool) : Sched :=
  ⟨t, .showEvt text warn (durationSec * 1000)⟩

/-- The display state at time `t` given a trace: the state left by the last
callback due at or before `t` (traces below are in nondecreasing time
order). -/
def stateAt (init : OverlayState) (trace : List (Nat × OverlayState)) (t : Nat) :
    OverlayState :=
  trace.foldl (fun acc p => if p.1 ≤ t then p.2 else acc) init

/-- The scenario of the claim: `show(x, 5, normal)` at time `t1`, then
`show(y, 5, warning)` at time `t2`. -/
def overlayScenario (t1 t2 : Nat) (x y : PyStr) : List (Nat × OverlayState) :=
  runOverlay 8 initialOverlay [show_answer t1 x 5 false, show_answer t2 y 5 true]

theorem countBackendCalls_nil : countBackendCalls [] = 0 := rfl

theorem countBackendCalls_cons_log (m : PyStr) (l : List Effect) :
    countBackendCalls (.log m :: l) = countBackendCalls l := by
  simp [countBackendCalls, List.countP_cons]

theorem countBackendCalls_cons_show (t : PyStr) (d : Nat) (w : Bool) (l : List Effect) :
    countBackendCalls (.showModal t d w :: l) = countBackendCalls l := by
  simp [countBackendCalls, List.countP_cons]

theorem countBackendCalls_cons_backend (p : PyStr) (l : List Effect) :
    countBackendCalls (.backendCall p :: l) = countBackendCalls l + 1 := by
  simp [countBackendCalls, List.countP_cons]

theorem countBackendCalls_answerBranch (a : Option PyStr) :
    countBackendCalls (answerBranch a) = 0 := by
  cases a with
  | none => simp [answerBranch, countBackendCalls_cons_log, countBackendCalls_nil]
  | some v =>
    by_cases h : v.isEmpty <;>
      simp [answerBranch, h, countBackendCalls_cons_log, countBackendCalls_cons_show,
        countBackendCalls_nil]

theorem countBackendCalls_resultEffects (r : Option PyStr × Option PyStr) :
    countBackendCalls (resultEffects r) = 0 := by
  obtain ⟨a, b⟩ := r
  cases b with
  | none => simp [resultEffects, countBackendCalls_answerBranch]
  | some v =>
    by_cases h : v.isEmpty <;>
      simp [resultEffects, h, countBackendCalls_answerBranch, countBackendCalls_cons_log,
        countBackendCalls_cons_show, countBackendCalls_nil]

/-- C1: if `process_screenshot` is invoked twice in direct succession with
the same resolved path, the vendor backend's `process_image` runs at most
once across the two calls, and the second call produces no actions at all
(no backend call, no overlay request). -/
theorem dedup_suppresses_second_call (env1 env2 : ProcEnv) (s arg1 arg2 : Option PyStr)
    (p : PyStr)
    (h1 : resolveScreenshotPath env1 arg1 = some p)
    (h2 : resolveScreenshotPath env2 arg2 = some p) :
    countBackendCalls (process_screenshot env1 s arg1).2
        + countBackendCalls
            (process_screenshot env2 (process_screenshot env1 s arg1).1 arg2).2 ≤ 1
    ∧ (process_screenshot env2 (process_screenshot env1 s arg1).1 arg2).2 = [] := by
  by_cases hdup : some p = s
  · subst hdup
    simp [process_screenshot, h1, h2, countBackendCalls_nil]
  · simp [process_screenshot, h1, h2, hdup, countBackendCalls_nil,
      countBackendCalls_cons_log, countBackendCalls_cons_backend,
      countBackendCalls_resultEffects]

/-- Environment used to instantiate the coordinator theorems: one image in
the directory, a backend that answers. -/
def demoProcEnv : ProcEnv :=
  ⟨some (s2c "a.png"), fun _ => (some (s2c "ans"), none)⟩

/-- C1 witness: concrete double invocation with the same resolved path. -/
theorem dedup_suppresses_second_call_witness :
    countBackendCalls (process_screenshot demoProcEnv none (some (s2c "a.png"))).2
        + countBackendCalls
            (process_screenshot demoProcEnv
              (process_screenshot demoProcEnv none (some (s2c "a.png"))).1
              (some (s2c "a.png"))).2 ≤ 1
    ∧ (process_screenshot demoProcEnv
          (process_screenshot demoProcEnv none (some (s2c "a.png"))).1
          (some (s2c "a.png"))).2 = [] :=
  dedup_suppresses_second_call demoProcEnv demoProcEnv none
    (some (s2c "a.png")) (some (s2c "a.png")) (s2c "a.png") rfl rfl

theorem pyMaxByMtime_mem (l : List DirEntry) (b : DirEntry) :
    pyMaxByMtime b l = b ∨ pyMaxByMtime b l ∈ l := by
  induction l generalizing b with
  | nil => exact Or.inl rfl
  | cons f fs ih =>
    simp only [pyMaxByMtime]
    rcases ih (if b.mtime < f.mtime then f else b) with h | h
    · rw [h]
      by_cases hc : b.mtime < f.mtime
      · right
        rw [if_pos hc]
        exact List.mem_cons_self f fs
      · left
        rw [if_neg hc]
    · right
      exact List.mem_cons_of_mem f h

theorem pyMaxByMtime_ge (l : List DirEntry) (b : DirEntry) :
    b.mtime ≤ (pyMaxByMtime b l).mtime
    ∧ ∀ f ∈ l, f.mtime ≤ (pyMaxByMtime b l).mtime := by
  induction l generalizing b with
  | nil => exact ⟨le_refl _, by simp⟩
  | cons g gs ih =>
    simp only [pyMaxByMtime]
    obtain ⟨h1, h2⟩ := ih (if b.mtime < g.mtime then g else b)
    refine ⟨le_trans ?_ h1, ?_⟩
    · by_cases hc : b.mtime < g.mtime
      · rw [if_pos hc]
        exact le_of_lt hc
      · rw [if_neg hc]
    · intro f hf
      rcases List.mem_cons.mp hf with rfl | hf
      · refine le_trans ?_ h1
        by_cases hc : b.mtime < f.mtime
        · rw [if_pos hc]
        · rw [if_neg hc]
          exact le_of_not_lt hc
      · exact h2 f hf

/-- C2: `get_latest_screenshot` returns `none` on an absent directory,
returns `none` when no entry is a regular file with an allow-listed image
extension, and otherwise returns the matching entry with the strictly
greatest modification time. The embedding is a total function, matching the
source's catch-all `except` (it never raises). -/
theorem latest_screenshot_correct :
    get_latest_screenshot none = none
    ∧ (∀ entries : List DirEntry,
        (∀ f ∈ entries, (f.isFile && isImageName f.name) = false) →
        get_latest_screenshot (some entries) = none)
    ∧ (∀ (entries : List DirEntry) (e : DirEntry),
        e ∈ entries → e.isFile = true → isImageName e.name = true →
        (∀ f ∈ entries, f.isFile = true → isImageName f.name = true → f ≠ e →
          f.mtime < e.mtime) →
        get_latest_screenshot (some entries) = some e.name) := by
  refine ⟨rfl, ?_, ?_⟩
  · intro entries hall
    have hnil : entries.filter (fun f => f.isFile && isImageName f.name) = [] := by
      rw [List.filter_eq_nil_iff]
      intro a ha
      simp [hall a ha]
    simp [get_latest_screenshot, hnil]
  · intro entries e he hf hi hmax
    have hmem : e ∈ entries.filter (fun f => f.isFile && isImageName f.name) :=
      List.mem_filter.mpr ⟨he, by simp [hf, hi]⟩
    cases hflt : entries.filter (fun f => f.isFile && isImageName f.name) with
    | nil =>
      rw [hflt] at hmem
      cases hmem
    | cons h t =>
      rw [hflt] at hmem
      have hm_mem : pyMaxByMtime h t ∈ h :: t := by
        rcases pyMaxByMtime_mem t h with hh | hh
        · rw [hh]
          exact List.mem_cons_self h t
        · exact List.mem_cons_of_mem h hh
      have hm_props : pyMaxByMtime h t ∈ entries
          ∧ ((pyMaxByMtime h t).isFile && isImageName (pyMaxByMtime h t).name) = true := by
        have : pyMaxByMtime h t ∈ entries.filter (fun f => f.isFile && isImageName f.name) := by
          rw [hflt]
          exact hm_mem
        exact List.mem_filter.mp this
      have he_le : e.mtime ≤ (pyMaxByMtime h t).mtime := by
        obtain ⟨hgeb, hgel⟩ := pyMaxByMtime_ge t h
        rcases List.mem_cons.mp hmem with rfl | hmem'
        · exact hgeb
        · exact hgel e hmem'
      have hme : pyMaxByMtime h t = e := by
        by_contra hne
        obtain ⟨hmf, hmi⟩ := Bool.and_eq_true_iff.mp hm_props.2
        exact absurd (lt_of_lt_of_le (hmax _ hm_props.1 hmf hmi hne) he_le)
          (lt_irrefl _)
      simp [get_latest_screenshot, hflt, hme]

/-- Directory listing of the spec's scenario: `shot1.png` at t=100 and
`shot2.jpg` at t=200. -/
def demoShots : List DirEntry :=
  [⟨s2c "shot1.png", true, 100⟩, ⟨s2c "shot2.jpg", true, 200⟩]

/-- C2 witness: on the scenario listing, `latest` picks `shot2.jpg`. -/
theorem latest_screenshot_correct_witness :
    get_latest_screenshot (some demoShots) = some (s2c "shot2.jpg") :=
  latest_screenshot_correct.2.2 demoShots ⟨s2c "shot2.jpg", true, 200⟩
    (by decide) rfl (by decide) (by decide)

theorem beginsWith_pyLower : ∀ (sub s : PyStr), pyLower sub = sub →
    beginsWith s sub = true → beginsWith (pyLower s) sub = true
  | [], s, _, _ => by cases s <;> rfl
  | _ :: _, [], _, h => Bool.noConfusion h
  | b :: t, a :: s2, hsub, h => by
    simp only [beginsWith, Bool.and_eq_true, beq_iff_eq] at h
    obtain ⟨rfl, h2⟩ := h
    have h3 : pyLowerCode a = a ∧ List.map pyLowerCode t = t := by
      simpa [pyLower] using hsub
    simp only [pyLower, List.map_cons, beginsWith, Bool.and_eq_true, beq_iff_eq]
    exact ⟨h3.1, beginsWith_pyLower t s2 h3.2 h2⟩

theorem containsSub_pyLower : ∀ (s sub : PyStr), pyLower sub = sub →
    containsSub s sub = true → containsSub (pyLower s) sub = true
  | [], sub, _, h => by simpa [containsSub, pyLower] using h
  | a :: rest, sub, hsub, h => by
    simp only [containsSub, Bool.or_eq_true] at h
    simp only [pyLower, List.map_cons, containsSub, Bool.or_eq_true]
    rcases h with h | h
    · refine Or.inl ?_
      have := beginsWith_pyLower sub (a :: rest) hsub h
      simpa [pyLower] using this
    · exact Or.inr (containsSub_pyLower rest sub hsub h)

theorem beginsWith_append_left : ∀ (x y s : PyStr),
    beginsWith s (x ++ y) = true → beginsWith s x = true
  | [], _, s, _ => by cases s <;> rfl
  | _ :: _, _, [], h => Bool.noConfusion h
  | a :: x2, y, b :: s2, h => by
    simp only [List.cons_append, beginsWith, Bool.and_eq_true] at h ⊢
    exact ⟨h.1, beginsWith_append_left x2 y s2 h.2⟩

theorem containsSub_append_left : ∀ (s x y : PyStr),
    containsSub s (x ++ y) = true → containsSub s x = true
  | [], x, y, h => by
    simp only [containsSub, List.isEmpty_iff, List.append_eq_nil] at h ⊢
    exact h.1
  | a :: rest, x, y, h => by
    simp only [containsSub, Bool.or_eq_true] at h ⊢
    rcases h with h | h
    · exact Or.inl (beginsWith_append_left x y _ h)
    · exact Or.inr (containsSub_append_left rest x y h)

/-- C3: a vendor exception whose `str(e)` contains `insufficient_quota`
gives a billing warning in every adapter, and for the OpenAI adapter a
`status_code`/`code` attribute of 429 or 402 does too: the result is
`(None, warning)` with a non-`None`, non-empty warning text. -/
theorem insufficient_quota_is_billing_warning (e : PyExc)
    (h : containsSub e.msg (s2c "insufficient_quota") = true
      ∨ openaiErrorCode e = some 429 ∨ openaiErrorCode e = some 402) :
    (openaiProcessImage (.error e) = (none, some openaiWarning) ∧ openaiWarning ≠ [])
    ∧ (containsSub e.msg (s2c "insufficient_quota") = true →
        geminiProcessImage (.error e) = (none, some geminiWarning)
        ∧ anthropicProcessImage (.error e) = (none, some anthropicWarning)) := by
  have hmsg : containsSub e.msg (s2c "insufficient_quota") = true →
      containsSub (pyLower e.msg) (s2c "insufficient_quota") = true := fun hm =>
    containsSub_pyLower e.msg _ (by decide) hm
  have hinsuf : containsSub e.msg (s2c "insufficient_quota") = true →
      containsSub (pyLower e.msg) (s2c "insufficient") = true := by
    intro hm
    have h1 := hmsg hm
    have h2 : s2c "insufficient_quota" = s2c "insufficient" ++ s2c "_quota" := by decide
    rw [h2] at h1
    exact containsSub_append_left _ _ _ h1
  constructor
  · have hbill : openaiIsBillingError e = true := by
      rcases h with hm | hc | hc
      · simp only [openaiIsBillingError, Bool.or_eq_true]
        refine Or.inl (Or.inl (Or.inr ?_))
        rw [List.any_eq_true]
        exact ⟨s2c "insufficient_quota", by decide, hmsg hm⟩
      · simp [openaiIsBillingError, hc]
      · simp [openaiIsBillingError, hc]
    exact ⟨by simp [openaiProcessImage, hbill], by decide⟩
  · intro hm
    constructor
    · have hany : gemini_billing_keywords.any
          (fun kw => containsSub (pyLower e.msg) kw) = true := by
        rw [List.any_eq_true]
        exact ⟨s2c "insufficient", by decide, hinsuf hm⟩
      simp [geminiProcessImage, hany]
    · have hany : anthropic_billing_keywords.any
          (fun kw => containsSub (pyLower e.msg) kw) = true := by
        rw [List.any_eq_true]
        exact ⟨s2c "insufficient", by decide, hinsuf hm⟩
      simp [anthropicProcessImage, hany]

/-- The exception of the C3 witness: message `insufficient_quota`, no
status attributes. -/
def exInsufficientQuota : PyExc := ⟨s2c "insufficient_quota", s2c "APIError", none, none⟩

/-- C3 witness: the concrete `insufficient_quota` exception is classified
as a billing warning by the OpenAI and Gemini adapters. -/
theorem insufficient_quota_is_billing_warning_witness :
    openaiProcessImage (.error exInsufficientQuota) = (none, some openaiWarning)
    ∧ geminiProcessImage (.error exInsufficientQuota) = (none, some geminiWarning) :=
  ⟨(insufficient_quota_is_billing_warning exInsufficientQuota (Or.inl (by decide))).1.1,
   ((insufficient_quota_is_billing_warning exInsufficientQuota
      (Or.inl (by decide))).2 (by decide)).1⟩

/-- The C4 counterexample exception: clean message `boom`, no status
attributes, but type name `QuotaError`. -/
def exQuotaTypeOnly : PyExc := ⟨s2c "boom", s2c "QuotaError", none, none⟩

/-- C4 counterexample: an exception whose lower-cased message contains no
billing keyword and which carries no billing status code is nevertheless
not a silent failure, because `OpenAIProvider.process_image` also matches
`quota`/`billing` against the exception's type name. -/
theorem silent_failure_counterexample :
    (openai_billing_keywords.all
        (fun kw => !containsSub (pyLower exQuotaTypeOnly.msg) kw)) = true
    ∧ openaiErrorCode exQuotaTypeOnly = none
    ∧ openaiProcessImage (.error exQuotaTypeOnly) ≠ (none, none) := by decide

/-- C4 (amended): a vendor exception whose lower-cased message contains no
billing keyword, which carries no 402/429 status code, and whose type name
contains neither `quota` nor `billing`, yields the silent failure
`(None, None)`; the coordinator still records the path as last-processed,
so a following call with the same resolved path does nothing. -/
theorem silent_failure_still_marks_processed (env : ProcEnv) (s arg : Option PyStr)
    (p : PyStr) (e : PyExc)
    (hres : resolveScreenshotPath env arg = some p)
    (hdup : some p ≠ s)
    (_hbackend : env.backend p = openaiProcessImage (.error e))
    (hkw : ∀ kw ∈ openai_billing_keywords, containsSub (pyLower e.msg) kw = false)
    (hcode : openaiErrorCode e ≠ some 402 ∧ openaiErrorCode e ≠ some 429)
    (htype : containsSub (pyLower e.typeName) (s2c "quota") = false
      ∧ containsSub (pyLower e.typeName) (s2c "billing") = false) :
    openaiProcessImage (.error e) = (none, none)
    ∧ (process_screenshot env s arg).1 = some p
    ∧ ∀ (env2 : ProcEnv) (arg2 : Option PyStr),
        resolveScreenshotPath env2 arg2 = some p →
        (process_screenshot env2 (process_screenshot env s arg).1 arg2).2 = [] := by
  have hnotbill : openaiIsBillingError e = false := by
    cases hb : openaiIsBillingError e with
    | false => rfl
    | true =>
      exfalso
      simp only [openaiIsBillingError, Bool.or_eq_true, beq_iff_eq] at hb
      rcases hb with (((hc | hc) | hany) | ht) | ht
      · exact hcode.1 hc
      · exact hcode.2 hc
      · rw [List.any_eq_true] at hany
        obtain ⟨kw, hmem, hkw2⟩ := hany
        rw [hkw kw hmem] at hkw2
        exact Bool.noConfusion hkw2
      · rw [htype.1] at ht
        exact Bool.noConfusion ht
      · rw [htype.2] at ht
        exact Bool.noConfusion ht
  have hsilent : openaiProcessImage (.error e) = (none, none) := by
    simp [openaiProcessImage, hnotbill]
  have hstate : (process_screenshot env s arg).1 = some p := by
    simp [process_screenshot, hres, hdup]
  refine ⟨hsilent, hstate, ?_⟩
  intro env2 arg2 hres2
  rw [hstate]
  simp [process_screenshot, hres2]

/-- A non-billing exception for the C4 witness. -/
def exPlainBoom : PyExc := ⟨s2c "boom", s2c "Exception", none, none⟩

/-- Environment for the C4 witness: the backend always fails with the plain
`boom` exception. -/
def demoFailEnv : ProcEnv := ⟨none, fun _ => openaiProcessImage (.error exPlainBoom)⟩

/-- C4 witness: the amended statement at the concrete `boom` exception. -/
theorem silent_failure_still_marks_processed_witness :
    openaiProcessImage (.error exPlainBoom) = (none, none)
    ∧ (process_screenshot demoFailEnv none (some (s2c "a.png"))).1 = some (s2c "a.png") := by
  have h := silent_failure_still_marks_processed demoFailEnv none (some (s2c "a.png"))
    (s2c "a.png") exPlainBoom rfl (by decide) rfl (by decide) (by decide) (by decide)
  exact ⟨h.1, h.2.1⟩

/-- C5 counterexample: with `show("X", 5, normal)` at t=0 ms and
`show("Y", 5, warning)` at t=1 ms, the window is visible at t=4999 but
already withdrawn at t=5000, strictly before the second call's expiry at
t=5001: `show_answer` arms a new `after` timer without cancelling the first
one, so the pending dismissal is not overwritten and the window does not
stay visible for the second call's full duration. -/
theorem overlay_timer_counterexample :
    (stateAt initialOverlay (overlayScenario 0 1 (s2c "X") (s2c "Y")) 5000).visible = false
    ∧ (stateAt initialOverlay (overlayScenario 0 1 (s2c "X") (s2c "Y")) 4999).visible = true
    ∧ (stateAt initialOverlay (overlayScenario 0 1 (s2c "X") (s2c "Y")) 4999).text = s2c "Y"
    ∧ 1 ≤ 5000 ∧ 5000 < 1 + 5 * 1000 := by decide

set_option maxRecDepth 10000 in
/-- C5 (amended): `show("X", 5, normal)` at `t1` followed by
`show("Y", 5, warning)` at `t2` leaves the visible text `"Y"` with warning
styling, but the first call's pending dismissal is not cancelled: the
window is withdrawn at the first call's expiry `t1 + 5000` ms, so it stays
visible for the second call's full duration only when both calls carry the
same timestamp. -/
theorem overlay_second_show_wins (t1 t2 : Nat) (x y : PyStr)
    (h1 : t1 ≤ t2) (h2 : t2 < t1 + 5000) :
    (∀ t, t2 ≤ t → t < t1 + 5000 →
      stateAt initialOverlay (overlayScenario t1 t2 x y) t = ⟨true, y, true⟩)
    ∧ (∀ t, t1 + 5000 ≤ t →
      (stateAt initialOverlay (overlayScenario t1 t2 x y) t).visible = false)
    ∧ (∀ t, t2 + 5000 ≤ t →
      stateAt initialOverlay (overlayScenario t1 t2 x y) t = ⟨false, y, true⟩) := by
  have hA : ¬ (t1 + 5000 < t2) := by omega
  have hB : ¬ (t2 + 5000 < t1 + 5000) := by omega
  have htr : overlayScenario t1 t2 x y =
      [(t1, ⟨true, x, false⟩), (t2, ⟨true, y, true⟩),
       (t1 + 5000, ⟨false, y, true⟩), (t2 + 5000, ⟨false, y, true⟩)] := by
    simp [overlayScenario, show_answer, runOverlay, applyEvt, insertSched, hA, hB]
  rw [htr]
  refine ⟨?_, ?_, ?_⟩
  · intro t ht1 ht2
    simp only [stateAt, List.foldl_cons, List.foldl_nil]
    rw [if_neg (by omega), if_neg (by omega), if_pos ht1]
  · intro t ht
    simp only [stateAt, List.foldl_cons, List.foldl_nil]
    by_cases hc : t2 + 5000 ≤ t
    · rw [if_pos hc]
    · rw [if_neg hc, if_pos (by omega)]
  · intro t ht
    simp only [stateAt, List.foldl_cons, List.foldl_nil]
    rw [if_pos (by omega)]

/-- C5 witness: the amended statement at t1 = 0, t2 = 1 with texts `X`,
`Y`: at t=1 the visible text is `Y` with warning styling. -/
theorem overlay_second_show_wins_witness :
    stateAt initialOverlay (overlayScenario 0 1 (s2c "X") (s2c "Y")) 1
      = ⟨true, s2c "Y", true⟩ :=
  (overlay_second_show_wins 0 1 (s2c "X") (s2c "Y") (by decide) (by decide)).1
    1 (by decide) (by decide)

/-- C6: for every variant's `process_image`, at most one of the two output
slots is set: success gives `(stripped text, None)`, a failure gives either
`(None, warning)` or the silent `(None, None)`; no call returns both slots
set. -/
theorem result_slots_exclusive :
    (∀ o : VendorOutcome,
      ((geminiProcessImage o).1.isSome && (geminiProcessImage o).2.isSome) = false
      ∧ ((openaiProcessImage o).1.isSome && (openaiProcessImage o).2.isSome) = false
      ∧ ((anthropicProcessImage o).1.isSome && (anthropicProcessImage o).2.isSome) = false)
    ∧ (∀ t : PyStr,
      geminiProcessImage (.ok t) = (some (pyStrip t), none)
      ∧ openaiProcessImage (.ok t) = (some (pyStrip t), none)
      ∧ anthropicProcessImage (.ok t) = (some (pyStrip t), none))
    ∧ (∀ e : PyExc,
      (geminiProcessImage (.error e) = (none, some geminiWarning)
        ∨ geminiProcessImage (.error e) = (none, none))
      ∧ (openaiProcessImage (.error e) = (none, some openaiWarning)
        ∨ openaiProcessImage (.error e) = (none, none))
      ∧ (anthropicProcessImage (.error e) = (none, some anthropicWarning)
        ∨ anthropicProcessImage (.error e) = (none, none))) := by
  have hg : ∀ e : PyExc, geminiProcessImage (.error e) = (none, some geminiWarning)
      ∨ geminiProcessImage (.error e) = (none, none) := by
    intro e
    by_cases h : gemini_billing_keywords.any (fun kw => containsSub (pyLower e.msg) kw) <;>
      simp [geminiProcessImage, h]
  have ho : ∀ e : PyExc, openaiProcessImage (.error e) = (none, some openaiWarning)
      ∨ openaiProcessImage (.error e) = (none, none) := by
    intro e
    by_cases h : openaiIsBillingError e <;> simp [openaiProcessImage, h]
  have ha : ∀ e : PyExc, anthropicProcessImage (.error e) = (none, some anthropicWarning)
      ∨ anthropicProcessImage (.error e) = (none, none) := by
    intro e
    by_cases h : anthropic_billing_keywords.any (fun kw => containsSub (pyLower e.msg) kw) <;>
      simp [anthropicProcessImage, h]
  refine ⟨?_, fun t => ⟨rfl, rfl, rfl⟩, fun e => ⟨hg e, ho e, ha e⟩⟩
  intro o
  cases o with
  | ok t => exact ⟨rfl, rfl, rfl⟩
  | error e =>
    refine ⟨?_, ?_, ?_⟩
    · rcases hg e with h | h <;> rw [h] <;> rfl
    · rcases ho e with h | h <;> rw [h] <;> rfl
    · rcases ha e with h | h <;> rw [h] <;> rfl

/-- Configuration with every credential present, used for C7. -/
def demoCfg : ConfigEnv :=
  ⟨some (s2c "k1"), some (s2c "k2"), some (s2c "k3"), s2c "openai"⟩

/-- C7 counterexample: with every credential configured, the unknown
backend name `foo` exits through the missing-credential branch
(`get_api_key` knows no key for an unknown name), not through a
construction error of the provider factory. -/
theorem fatal_config_counterexample :
    initialize_provider demoCfg (fun _ => true) (some (s2c "foo"))
      = .exitFail 1 (missingKeyMsg (s2c "foo"))
    ∧ missingKeyMsg (s2c "foo") ≠ initErrorMsg (unknownProviderMsg (s2c "foo")) := by
  decide

/-- C7 (amended): every fatal configuration error prints a remediation
message and exits with status 1: a missing (or empty) credential for the
resolved backend name, an unknown backend name — compared
case-insensitively, and exiting through the missing-credential branch,
while `create_provider` itself would raise `ValueError` — and an absent
screenshot directory. -/
theorem fatal_config_errors_exit (cfg : ConfigEnv) (lib : ProviderTag → Bool)
    (arg : Option PyStr) (dirExists : Bool) :
    (get_api_key cfg (resolvedProviderName cfg arg) = none →
      initialize_provider cfg lib arg
        = .exitFail 1 (missingKeyMsg (resolvedProviderName cfg arg)))
    ∧ (get_api_key cfg (resolvedProviderName cfg arg) = some [] →
      initialize_provider cfg lib arg
        = .exitFail 1 (missingKeyMsg (resolvedProviderName cfg arg)))
    ∧ (pyLower (resolvedProviderName cfg arg) ∉
        [s2c "gemini", s2c "openai", s2c "anthropic"] →
      initialize_provider cfg lib arg
        = .exitFail 1 (missingKeyMsg (resolvedProviderName cfg arg))
      ∧ create_provider lib (resolvedProviderName cfg arg)
        = .error (unknownProviderMsg (pyLower (resolvedProviderName cfg arg))))
    ∧ (dirExists = false → runDirCheck dirExists
        = some (1, s2c "Error: Screenshot directory does not exist: C:\\Users\\janpa\\Pictures\\Screenshots")) := by
  refine ⟨?_, ?_, ?_, ?_⟩
  · intro h
    simp [initialize_provider, h]
  · intro h
    simp [initialize_provider, h]
  · intro h
    simp only [List.mem_cons, List.mem_singleton, not_or] at h
    obtain ⟨h1, h2, h3⟩ := h
    have hkey : get_api_key cfg (resolvedProviderName cfg arg) = none := by
      simp [get_api_key, h1, h2, h3]
    refine ⟨by simp [initialize_provider, hkey], ?_⟩
    simp [create_provider, h1, h2, h3]
  · intro h
    simp [runDirCheck, h]

/-- C7 witness: the amended statement at backend name `foo` (all keys set)
and at an absent screenshot directory. -/
theorem fatal_config_errors_exit_witness :
    initialize_provider demoCfg (fun _ => true) (some (s2c "foo"))
      = .exitFail 1 (missingKeyMsg (s2c "foo"))
    ∧ runDirCheck false
      = some (1, s2c "Error: Screenshot directory does not exist: C:\\Users\\janpa\\Pictures\\Screenshots") := by
  have h := fatal_config_errors_exit demoCfg (fun _ => true) (some (s2c "foo")) false
  exact ⟨(h.2.2.1 (by decide)).1, h.2.2.2 rfl⟩

/-- C8: on a dispatched path, a truthy billing warning is forwarded to the
overlay with the warning style and the 10-second error duration and nothing
else is displayed; a non-empty answer with no billing warning is forwarded
with the normal style and the 5-second duration. The adapters never produce
an empty-string warning, so every non-`None` adapter warning is truthy. -/
theorem billing_warning_forwarded (env : ProcEnv) (s arg : Option PyStr) (p : PyStr)
    (hres : resolveScreenshotPath env arg = some p)
    (hdup : some p ≠ s) :
    (∀ a b, env.backend p = (a, some b) → b ≠ [] →
      (process_screenshot env s arg).2
        = [.log (s2c "Processing screenshot: " ++ p), .backendCall p,
           .log (s2c "Billing error: " ++ b), .showModal b MODAL_ERROR_DURATION true]
      ∧ MODAL_ERROR_DURATION = 10)
    ∧ (∀ a, env.backend p = (some a, none) → a ≠ [] →
      (process_screenshot env s arg).2
        = [.log (s2c "Processing screenshot: " ++ p), .backendCall p,
           .log (s2c "Answer: " ++ a), .showModal a MODAL_DISPLAY_DURATION false]
      ∧ MODAL_DISPLAY_DURATION = 5)
    ∧ (∀ o : VendorOutcome, (geminiProcessImage o).2 ≠ some []
        ∧ (openaiProcessImage o).2 ≠ some []
        ∧ (anthropicProcessImage o).2 ≠ some []) := by
  refine ⟨?_, ?_, ?_⟩
  · intro a b hb hbne
    have hbe : b.isEmpty = false := by
      simp [List.isEmpty_iff, hbne]
    refine ⟨?_, rfl⟩
    simp [process_screenshot, hres, hdup, hb, resultEffects, hbe]
  · intro a ha hane
    have hae : a.isEmpty = false := by
      simp [List.isEmpty_iff, hane]
    refine ⟨?_, rfl⟩
    simp [process_screenshot, hres, hdup, ha, resultEffects, answerBranch, hae]
  · intro o
    cases o with
    | ok t => exact ⟨by simp [geminiProcessImage], by simp [openaiProcessImage],
        by simp [anthropicProcessImage]⟩
    | error e =>
      refine ⟨?_, ?_, ?_⟩
      · by_cases h : gemini_billing_keywords.any (fun kw => containsSub (pyLower e.msg) kw)
        · have hw : geminiProcessImage (.error e) = (none, some geminiWarning) := by
            simp [geminiProcessImage, h]
          rw [hw]
          decide
        · simp [geminiProcessImage, h]
      · by_cases h : openaiIsBillingError e
        · have hw : openaiProcessImage (.error e) = (none, some openaiWarning) := by
            simp [openaiProcessImage, h]
          rw [hw]
          decide
        · simp [openaiProcessImage, h]
      · by_cases h : anthropic_billing_keywords.any (fun kw => containsSub (pyLower e.msg) kw)
        · have hw : anthropicProcessImage (.error e) = (none, some anthropicWarning) := by
            simp [anthropicProcessImage, h]
          rw [hw]
          decide
        · simp [anthropicProcessImage, h]

/-- Environment for the C8 witness: the backend reports a billing warning. -/
def demoBillingEnv : ProcEnv := ⟨none, fun _ => (none, some (s2c "warn"))⟩

/-- C8 witness: the billing branch at a concrete path and warning. -/
theorem billing_warning_forwarded_witness :
    (process_screenshot demoBillingEnv none (some (s2c "b.png"))).2
      = [.log (s2c "Processing screenshot: " ++ s2c "b.png"), .backendCall (s2c "b.png"),
         .log (s2c "Billing error: " ++ s2c "warn"),
         .showModal (s2c "warn") MODAL_ERROR_DURATION true] :=
  ((billing_warning_forwarded demoBillingEnv none (some (s2c "b.png")) (s2c "b.png")
      rfl (by decide)).1 none (s2c "warn") rfl (by decide)).1

/-- C9: `on_created` dispatches only for a non-directory event whose path
has an allow-listed image extension, and then exactly as the 0.5-second
settle delay followed by the dispatch of that path; a creation event for
`note.txt` produces no dispatch at all. -/
theorem watcher_dispatch_filter (ev : FsEvent) (p : PyStr) :
    (WatchEffect.dispatch p ∈ on_created ev →
      ev.is_directory = false ∧ isImagePath ev.src_path = true ∧ p = ev.src_path
      ∧ on_created ev = [.sleepMs 500, .dispatch ev.src_path])
    ∧ on_created ⟨false, s2c "note.txt"⟩ = [] := by
  refine ⟨?_, by decide⟩
  intro hmem
  by_cases hd : ev.is_directory
  · simp [on_created, hd] at hmem
  · by_cases hi : isImagePath ev.src_path
    · have hp : p = ev.src_path := by
        simpa [on_created, hd, hi] using hmem
      exact ⟨by simpa using hd, hi, hp, by simp [on_created, hd, hi]⟩
    · simp [on_created, hd, hi] at hmem

/-- C9 witness: a non-directory creation event for `shot.png` dispatches
after the settle delay. -/
theorem watcher_dispatch_filter_witness :
    on_created ⟨false, s2c "shot.png"⟩ = [.sleepMs 500, .dispatch (s2c "shot.png")] :=
  ((watcher_dispatch_filter ⟨false, s2c "shot.png"⟩ (s2c "shot.png")).1 (by decide)).2.2.2

theorem pyLowerCode_eq_iff (n m : Nat) (h1 : ¬(65 ≤ m ∧ m ≤ 90))
    (h2 : ¬(97 ≤ m ∧ m ≤ 122)) : pyLowerCode n = m ↔ n = m := by
  unfold pyLowerCode
  split <;> omega

theorem pyLowerCode_idem (n : Nat) : pyLowerCode (pyLowerCode n) = pyLowerCode n := by
  by_cases h : 65 ≤ n ∧ n ≤ 90
  · have h1 : pyLowerCode n = n + 32 := by
      rw [pyLowerCode, if_pos h]
    rw [h1, pyLowerCode, if_neg (by omega)]
  · have h1 : pyLowerCode n = n := by
      rw [pyLowerCode, if_neg h]
    rw [h1]
    exact h1

theorem pyLower_idem (s : PyStr) : pyLower (pyLower s) = pyLower s := by
  simp only [pyLower, List.map_map]
  exact List.map_congr_left (fun a _ => pyLowerCode_idem a)

theorem lastDotIdx_pyLower (s : PyStr) : lastDotIdx (pyLower s) = lastDotIdx s := by
  induction s with
  | nil => rfl
  | cons c cs ih =>
    simp only [pyLower, List.map_cons, lastDotIdx]
    rw [show List.map pyLowerCode cs = pyLower cs from rfl, ih]
    cases h : lastDotIdx cs with
    | some i => rfl
    | none =>
      have hd : pyLowerCode c = 46 ↔ c = 46 :=
        pyLowerCode_eq_iff c 46 (by omega) (by omega)
      by_cases hc : c = 46
      · rw [if_pos (hd.mpr hc), if_pos hc]
      · rw [if_neg (fun hh => hc (hd.mp hh)), if_neg hc]

theorem pyNameAux_pyLower (s : PyStr) : ∀ acc : PyStr,
    pyNameAux (pyLower acc) (pyLower s) = pyLower (pyNameAux acc s) := by
  induction s with
  | nil => intro acc; rfl
  | cons c cs ih =>
    intro acc
    simp only [pyLower, List.map_cons, pyNameAux]
    have h47 : pyLowerCode c = 47 ↔ c = 47 :=
      pyLowerCode_eq_iff c 47 (by omega) (by omega)
    have h92 : pyLowerCode c = 92 ↔ c = 92 :=
      pyLowerCode_eq_iff c 92 (by omega) (by omega)
    by_cases hc : c = 47 ∨ c = 92
    · rw [if_pos (hc.imp h47.mpr h92.mpr), if_pos hc]
      have h0 := ih []
      simpa [pyLower] using h0
    · rw [if_neg (fun hh => hc (hh.imp h47.mp h92.mp)), if_neg hc]
      have h0 := ih (acc ++ [c])
      simpa [pyLower, List.map_append] using h0

theorem pyName_pyLower (p : PyStr) : pyName (pyLower p) = pyLower (pyName p) :=
  pyNameAux_pyLower p []

theorem dropMapComm (f : Nat → Nat) : ∀ (i : Nat) (l : List Nat),
    List.drop i (List.map f l) = List.map f (List.drop i l)
  | 0, _ => rfl
  | _ + 1, [] => rfl
  | i + 1, _ :: xs => dropMapComm f i xs

theorem pySuffixOfName_pyLower (name : PyStr) :
    pySuffixOfName (pyLower name) = pyLower (pySuffixOfName name) := by
  simp only [pySuffixOfName, lastDotIdx_pyLower]
  cases h : lastDotIdx name with
  | none => rfl
  | some i =>
    simp only [pyLower, List.length_map]
    by_cases hc : 0 < i ∧ i + 1 < name.length
    · rw [if_pos hc, if_pos hc]
      exact dropMapComm pyLowerCode i name
    · rw [if_neg hc, if_neg hc]
      rfl

theorem pySuffix_pyLower (p : PyStr) : pySuffix (pyLower p) = pyLower (pySuffix p) := by
  unfold pySuffix
  rw [pyName_pyLower, pySuffixOfName_pyLower]

theorem isImageName_pyLower (name : PyStr) :
    isImageName (pyLower name) = isImageName name := by
  unfold isImageName
  rw [pySuffixOfName_pyLower, pyLower_idem]

theorem isImagePath_pyLower (p : PyStr) :
    isImagePath (pyLower p) = isImagePath p := by
  unfold isImagePath
  rw [pySuffix_pyLower, pyLower_idem]

/-- C10: the image-extension filters of `get_latest_screenshot` and
`on_created` lower-case the suffix before comparing it with the
allow-list, so matching is case-insensitive: lower-casing a name or a path
never changes acceptance, and concretely `SHOT.PNG` is selected by
`latest` and dispatched by the watcher exactly as `shot.png` would be. -/
theorem extension_match_case_insensitive :
    (∀ name : PyStr, isImageName (pyLower name) = isImageName name)
    ∧ (∀ p : PyStr, isImagePath (pyLower p) = isImagePath p)
    ∧ isImagePath (s2c "SHOT.PNG") = true
    ∧ isImagePath (s2c "shot.png") = true
    ∧ get_latest_screenshot (some [⟨s2c "SHOT.PNG", true, 100⟩]) = some (s2c "SHOT.PNG")
    ∧ on_created ⟨false, s2c "SHOT.PNG"⟩ = [.sleepMs 500, .dispatch (s2c "SHOT.PNG")] :=
  ⟨isImageName_pyLower, isImagePath_pyLower, by decide, by decide, by decide, by decide⟩
